import Mathlib

/-!
Shallow embedding of the kanban-be backend (Rust, actix-web + sqlx) and proofs
about its handlers.

The database is modelled as explicit in-memory state (lists of rows); each
handler becomes a pure function from state and request to a result together
with the post-state.  SQL transactions are modelled by building a tentative
state (`tx`) and returning the original state on every error path (rollback)
and the tentative state on commit.  External effects (bcrypt verification,
JWT encoding, the random UUID, a database insert that may fail) are passed in
as explicit parameters.
-/

namespace Kanban

/-- `ServiceError` from `src/utils/errors.rs`. -/
inductive ServiceError where
  | Unauthorized (msg : String)
  | NotFound (msg : String)
  | InternalError (msg : String)
  | DatabaseError (msg : String)
  | ValidationError (msg : String)
  | AuthenticationError (msg : String)
deriving DecidableEq, Repr

/-- HTTP status assigned to each error kind by
`impl ResponseError for ServiceError` in `src/utils/errors.rs`. -/
def ServiceError.httpStatus : ServiceError → Nat
  | .Unauthorized _ => 401
  | .NotFound _ => 404
  | .InternalError _ => 500
  | .DatabaseError _ => 500
  | .ValidationError _ => 400
  | .AuthenticationError _ => 401

/-- Client-visible message of an error response
(`error_response` in `src/utils/errors.rs`): database and internal errors are
replaced by fixed generic texts, the other kinds pass their message through. -/
def ServiceError.clientMessage : ServiceError → String
  | .Unauthorized msg => msg
  | .NotFound msg => msg
  | .InternalError _ => "Something went wrong"
  | .DatabaseError _ => "Database operation failed"
  | .ValidationError msg => msg
  | .AuthenticationError msg => msg

/-- `ApiResponse<T>` from `src/models/auth.rs`; `ApiResponse::success` always
sets `status = "success"` and wraps the payload in `Some`. -/
structure ApiResp (α : Type) where
  status : String
  message : String
  data : Option α
deriving DecidableEq, Repr

/-- `ApiResponse::success(message, data)` from `src/models/auth.rs`. -/
def ApiResp.success {α : Type} (message : String) (data : α) : ApiResp α :=
  { status := "success", message := message, data := some data }

/-- HTTP status of a handler outcome: handlers return `Ok(HttpResponse)` with
an explicit status, or a `ServiceError` mapped through `error_response`. -/
def httpStatusOf {α : Type} : Except ServiceError (Nat × α) → Nat
  | .ok (s, _) => s
  | .error e => e.httpStatus

/-- Decidable equality for `Except` values of the handler result types. -/
instance {e a : Type} [DecidableEq e] [DecidableEq a] : DecidableEq (Except e a) :=
  fun x y =>
    match x, y with
    | .ok x, .ok y => decidable_of_iff (x = y) (by simp)
    | .error x, .error y => decidable_of_iff (x = y) (by simp)
    | .ok _, .error _ => isFalse (fun h => Except.noConfusion h)
    | .error _, .ok _ => isFalse (fun h => Except.noConfusion h)

/-! ## Task / team data model (`src/models/task.rs`, tables `tasks`,
`teams`, `task_teams`) -/

/-- Row of the `teams` table (`Team` in `src/models/task.rs`; `created_at`
is irrelevant to the verified handlers and omitted). -/
structure Team where
  id : Int
  name : String
deriving DecidableEq, Repr

/-- Row of the `tasks` table (`Task` in `src/models/task.rs`).  Timestamps
are modelled as abstract `Nat` instants. -/
structure Task where
  id : Int
  name : String
  description : Option String
  status : String
  external_link : Option String
  created_by : Int
  created_at : Nat
  updated_at : Nat
deriving DecidableEq, Repr

/-- The task-side database state: the `teams`, `tasks` and `task_teams`
tables.  (`task_attachments` belongs to the upload model below; the task
handlers never modify it.) -/
structure DbState where
  teams : List Team
  tasks : List Task
  taskTeams : List (Int × Int)  -- (task_id, team_id) rows of `task_teams`
deriving DecidableEq, Repr

/-- `SELECT id FROM teams WHERE name = $1` with `fetch_optional`. -/
def lookupTeam (teams : List Team) (name : String) : Option Team :=
  teams.find? (fun t => t.name = name)

/-- `SELECT ... FROM tasks WHERE id = $1` with `fetch_optional`. -/
def findTask (st : DbState) (id : Int) : Option Task :=
  st.tasks.find? (fun t => t.id = id)

/-- Team names currently assigned to a task
(`get_task_teams` in `src/handlers/task.rs`). -/
def taskTeamNames (st : DbState) (taskId : Int) : List String :=
  (st.teams.filter (fun t => (taskId, t.id) ∈ st.taskTeams)).map Team.name

/-- `get_team_ids_from_names` from `src/handlers/task.rs`: resolves each team
name in order, failing with `ValidationError "Team '<name>' not found"` at the
first name that matches no row of `teams`. -/
def get_team_ids_from_names (teams : List Team) :
    List String → Except ServiceError (List Int)
  | [] => .ok []
  | n :: rest =>
    match lookupTeam teams n with
    | some t =>
      match get_team_ids_from_names teams rest with
      | .ok ids => .ok (t.id :: ids)
      | .error e => .error e
    | none => .error (.ValidationError ("Team '" ++ n ++ "' not found"))

/-- `CreateTaskRequest` from `src/models/task.rs`. -/
structure CreateTaskRequest where
  name : String
  description : Option String
  status : String
  external_link : Option String
  teams : Option (List String)
deriving DecidableEq, Repr

/-- `TaskResponse` from `src/models/task.rs` (attachment summaries, which the
task-write handlers only read, are omitted from this task-side model). -/
structure TaskResponse where
  id : Int
  name : String
  description : Option String
  status : String
  external_link : Option String
  created_by : Int
  teams : List String
  created_at : Nat
  updated_at : Nat
deriving DecidableEq, Repr

/-- Rust's `s.trim().is_empty()`: true iff every character is whitespace.
(`String.trim` itself does not reduce in the kernel; emptiness-after-trim is
exactly all-whitespace.) -/
def isBlank (s : String) : Bool :=
  s.toList.all Char.isWhitespace

/-- The `valid_statuses` array of `create_task` / `update_task`. -/
def valid_statuses : List String := ["TO_DO", "DOING", "DONE"]

/-- `create_task` from `src/handlers/task.rs` (post-authentication body).
`newId` stands for the database-assigned `RETURNING id`, `now` for `NOW()`.
The task row is inserted into the transaction `tx` first; team names are then
resolved against the pool (the original state, as in the source) and join rows
added to `tx`; any error drops `tx` (rollback), so the returned state is the
original one on every error path and `tx` only on commit. -/
def create_task (st : DbState) (userId : Int) (req : CreateTaskRequest)
    (newId : Int) (now : Nat) :
    Except ServiceError (Nat × ApiResp TaskResponse) × DbState :=
  if isBlank req.name then
    (.error (.ValidationError "Task name is required"), st)
  else if ¬ valid_statuses.contains req.status then
    (.error (.ValidationError "Invalid task status"), st)
  else
    let task : Task :=
      { id := newId, name := req.name, description := req.description,
        status := req.status, external_link := req.external_link,
        created_by := userId, created_at := now, updated_at := now }
    let tx : DbState := { st with tasks := st.tasks ++ [task] }
    let respOf : List String → Nat × ApiResp TaskResponse := fun teams =>
      (201, ApiResp.success "Task created successfully"
        { id := newId, name := task.name, description := task.description,
          status := task.status, external_link := task.external_link,
          created_by := userId, teams := teams,
          created_at := now, updated_at := now })
    match req.teams with
    | some team_names =>
      if team_names.isEmpty then
        (.ok (respOf []), tx)
      else
        match get_team_ids_from_names st.teams team_names with
        | .error e => (.error e, st)
        | .ok team_ids =>
          let tx' : DbState :=
            { tx with taskTeams :=
                tx.taskTeams ++ team_ids.map (fun tid => (newId, tid)) }
          (.ok (respOf team_names), tx')
    | none => (.ok (respOf []), tx)

/-- `UpdateTaskRequest` from `src/models/task.rs`. -/
structure UpdateTaskRequest where
  name : Option String
  description : Option String
  status : Option String
  external_link : Option String
  teams : Option (List String)
deriving DecidableEq, Repr

/-- The `has_updates` flag computed by `update_task`: true iff at least one
scalar field is present in the request. -/
def UpdateTaskRequest.hasUpdates (req : UpdateTaskRequest) : Bool :=
  req.name.isSome || req.description.isSome ||
    req.status.isSome || req.external_link.isSome

/-- Effect of the dynamic
`UPDATE tasks SET updated_at = NOW(), <present fields> WHERE id = ...`
on one matching row (only run by `update_task` when `hasUpdates`). -/
def applyScalarUpdate (t : Task) (req : UpdateTaskRequest) (now : Nat) : Task :=
  { t with
    name := req.name.getD t.name
    description := match req.description with
      | some d => some d
      | none => t.description
    status := req.status.getD t.status
    external_link := match req.external_link with
      | some l => some l
      | none => t.external_link
    updated_at := now }

/-- `update_task` from `src/handlers/task.rs` (post-authentication body).
When no scalar field is present (`has_updates = false`) the source runs no
`UPDATE` at all and merely re-reads the row, so `updated_at` is untouched on
that path.  Team resolution reads the pool (the original state, as in the
source); any error drops the transaction, returning the original state. -/
def update_task (st : DbState) (taskId : Int) (req : UpdateTaskRequest)
    (now : Nat) :
    Except ServiceError (Nat × ApiResp TaskResponse) × DbState :=
  match findTask st taskId with
  | none => (.error (.NotFound "Task not found"), st)
  | some oldTask =>
    if (match req.status with
        | some s => !valid_statuses.contains s
        | none => false) then
      (.error (.ValidationError "Invalid task status"), st)
    else
      let newTasks : List Task :=
        st.tasks.map (fun t => if t.id = taskId then applyScalarUpdate t req now else t)
      let tx1 : DbState :=
        if req.hasUpdates then { st with tasks := newTasks } else st
      let updatedTask : Task :=
        if req.hasUpdates then applyScalarUpdate oldTask req now else oldTask
      let respOf : List String → Nat × ApiResp TaskResponse := fun teams =>
        (200, ApiResp.success "Task updated successfully"
          { id := updatedTask.id, name := updatedTask.name,
            description := updatedTask.description,
            status := updatedTask.status,
            external_link := updatedTask.external_link,
            created_by := updatedTask.created_by, teams := teams,
            created_at := updatedTask.created_at,
            updated_at := updatedTask.updated_at })
      match req.teams with
      | some team_names =>
        -- `DELETE FROM task_teams WHERE task_id = $1` inside the transaction
        let tx2 : DbState :=
          { tx1 with taskTeams := tx1.taskTeams.filter (fun p => p.1 ≠ taskId) }
        if team_names.isEmpty then
          (.ok (respOf team_names), tx2)
        else
          match get_team_ids_from_names st.teams team_names with
          | .error e => (.error e, st)
          | .ok team_ids =>
            (.ok (respOf team_names),
             { tx2 with taskTeams :=
                 tx2.taskTeams ++ team_ids.map (fun tid => (taskId, tid)) })
      | none =>
        -- teams absent: assignments untouched, response re-reads current names
        (.ok (respOf (taskTeamNames st taskId)), tx1)

/-- `delete_task` from `src/handlers/task.rs` (post-authentication body):
`DELETE FROM tasks WHERE id = $1`, then `NotFound` iff `rows_affected = 0`. -/
def delete_task (st : DbState) (taskId : Int) :
    Except ServiceError (Nat × ApiResp Bool) × DbState :=
  let remaining := st.tasks.filter (fun t => t.id ≠ taskId)
  if remaining.length = st.tasks.length then
    (.error (.NotFound "Task not found"), st)
  else
    (.ok (200, ApiResp.success "Task deleted successfully" true),
     { st with tasks := remaining })

/-- `get_task` from `src/handlers/task.rs` (post-authentication body).  The
missing-row branch returns HTTP 200 with
`ApiResponse::success("Task not found", None::<TaskResponse>)`; the payload is
modelled as `Option TaskResponse` so that branch carries `none` ("empty
data") and the found branch `some` of the projection. -/
def get_task (st : DbState) (taskId : Int) :
    Except ServiceError (Nat × ApiResp (Option TaskResponse)) :=
  match findTask st taskId with
  | none => .ok (200, ApiResp.success "Task not found" (none : Option TaskResponse))
  | some t =>
    .ok (200, ApiResp.success "Task retrieved successfully"
      (some { id := t.id, name := t.name, description := t.description,
              status := t.status, external_link := t.external_link,
              created_by := t.created_by, teams := taskTeamNames st taskId,
              created_at := t.created_at, updated_at := t.updated_at }))

/-! ## Authentication (`src/handlers/auth.rs`) -/

/-- Row of the `users` table (`User` in `src/models/auth.rs`; timestamps are
irrelevant to the verified behaviour and omitted). -/
structure UserRow where
  id : Int
  username : String
  password_hash : String
  name : String
deriving DecidableEq, Repr

/-- `LoginRequest` from `src/models/auth.rs`. -/
structure LoginRequest where
  username : String
  password : String
deriving DecidableEq, Repr

/-- `UserResponse` from `src/models/auth.rs` (timestamps omitted). -/
structure UserResponse where
  id : Int
  username : String
  name : String
deriving DecidableEq, Repr

/-- `LoginResponseData` from `src/models/auth.rs`. -/
structure LoginResponseData where
  token : String
  user : UserResponse
deriving DecidableEq, Repr

/-- `login` from `src/handlers/auth.rs` (post-parse body).  `verify` stands
for `bcrypt::verify` (`.error ()` = a bcrypt failure, `.ok b` = the hash
comparison result); `encodeJwt` stands for `jsonwebtoken::encode` with the
configured secret, applied to the claim fields (sub, username, name, exp,
iat); `now` is the issue instant in Unix seconds. -/
def login (users : List UserRow) (verify : String → String → Except Unit Bool)
    (encodeJwt : String → String → String → Nat → Nat → String)
    (now : Nat) (req : LoginRequest) :
    Except ServiceError (Nat × ApiResp LoginResponseData) :=
  if isBlank req.username then
    .error (.ValidationError "Username is required")
  else if isBlank req.password then
    .error (.ValidationError "Password is required")
  else
    match users.find? (fun u => u.username = req.username) with
    | none => .error (.Unauthorized "Invalid credentials")
    | some u =>
      match verify req.password u.password_hash with
      | .error _ => .error (.AuthenticationError "Password verification failed")
      | .ok false => .error (.Unauthorized "Invalid credentials")
      | .ok true =>
        let exp := now + 24 * 60 * 60
        let token := encodeJwt (toString u.id) req.username u.name exp now
        .ok (200, ApiResp.success "Login successful"
          { token := token,
            user := { id := u.id, username := u.username, name := u.name } })

/-! ## Configuration (`src/config.rs`) and startup (`src/main.rs`) -/

/-- Rust's `str::trim`: drop leading and trailing whitespace (executable
translation; core `String.trim` does not reduce in the kernel). -/
def rustTrim (s : String) : String :=
  String.mk (((s.toList.dropWhile Char.isWhitespace).reverse.dropWhile Char.isWhitespace).reverse)

/-- Character-list worker for `splitComma`. -/
def splitCommaChars : List Char → List (List Char)
  | [] => [[]]
  | c :: rest =>
    let r := splitCommaChars rest
    if c = ',' then [] :: r
    else
      match r with
      | [] => [[c]]
      | h :: t => (c :: h) :: t

/-- Rust's `str::split(',')`: always yields at least one piece (the empty
string splits to `[""]`), like the source's `frontend_urls_str.split(',')`. -/
def splitComma (s : String) : List String :=
  (splitCommaChars s.toList).map String.mk

/-- Rust's `str::starts_with` on string patterns (executable translation;
core `String.startsWith` does not reduce in the kernel). -/
def startsWithStr (s pat : String) : Bool :=
  pat.toList.isPrefixOf s.toList

/-- Rust's `str::to_lowercase` restricted to the ASCII file-extension
alphabet (executable translation; core `String.toLower` does not reduce in
the kernel). -/
def toLowerStr (s : String) : String :=
  String.mk (s.toList.map Char.toLower)

/-- The process environment as read by `AppConfig::from_env`. -/
structure Env where
  database_url : Option String
  port : Option String
  jwt_secret : Option String
  environment : Option String
  frontend_urls : Option String
  cloudinary_cloud_name : Option String
  cloudinary_api_key : Option String
  cloudinary_api_secret : Option String
deriving DecidableEq, Repr

/-- `AppConfig` from `src/config.rs`. -/
structure AppConfig where
  database_url : String
  port : Nat
  jwt_secret : String
  environment : String
  frontend_urls : List String
  cloudinary_cloud_name : Option String
  cloudinary_api_key : Option String
  cloudinary_api_secret : Option String
deriving DecidableEq, Repr

/-- Decimal-digit accumulator for `parsePort`. -/
def digitsToNat (acc : Nat) : List Char → Option Nat
  | [] => some acc
  | c :: rest =>
    if c.isDigit then digitsToNat (acc * 10 + (c.toNat - 48)) rest else none

/-- `PORT.parse::<u16>()`: a `u16` value from decimal digits, or failure
(sign/whitespace subtleties of Rust's integer parser do not arise for the
values used here; core `String.toNat?` does not reduce in the kernel). -/
def parsePort (s : String) : Option Nat :=
  if s.toList.isEmpty then none
  else
    match digitsToNat 0 s.toList with
    | some n => if n < 65536 then some n else none
    | none => none

/-- `AppConfig::from_env` from `src/config.rs`: reads the variables with their
defaults, splits `FRONTEND_URLS` on commas and trims each entry, and performs
exactly two validations — JWT secret length ≥ 32 and the PostgreSQL URL
scheme.  The frontend URLs are NOT validated here. -/
def AppConfig.from_env (env : Env) : Except String AppConfig :=
  match env.database_url with
  | none => .error "DATABASE_URL must be set"
  | some database_url =>
    match parsePort (env.port.getD "8080") with
    | none => .error "PORT must be a valid number"
    | some port =>
      match env.jwt_secret with
      | none => .error "JWT_SECRET must be set"
      | some jwt_secret =>
        let environment := env.environment.getD "development"
        let frontend_urls_str := env.frontend_urls.getD "http://localhost:3000"
        let frontend_urls := (splitComma frontend_urls_str).map rustTrim
        if jwt_secret.length < 32 then
          .error "JWT_SECRET must be at least 32 characters long for security"
        else if ¬ (startsWithStr database_url "postgresql://" ∨
                   startsWithStr database_url "postgres://") then
          .error "DATABASE_URL must be a valid PostgreSQL connection string"
        else
          .ok { database_url := database_url, port := port,
                jwt_secret := jwt_secret, environment := environment,
                frontend_urls := frontend_urls,
                cloudinary_cloud_name := env.cloudinary_cloud_name,
                cloudinary_api_key := env.cloudinary_api_key,
                cloudinary_api_secret := env.cloudinary_api_secret }

/-- The frontend-URL scan of `AppConfig::validate`: fails at the first URL
that starts with neither `http://` nor `https://`, naming it. -/
def checkFrontendUrls : List String → Except String Unit
  | [] => .ok ()
  | url :: rest =>
    if ¬ (startsWithStr url "http://" ∨ startsWithStr url "https://") then
      .error ("Frontend URL '" ++ url ++ "' must start with http:// or https://")
    else checkFrontendUrls rest

/-- `AppConfig::validate` from `src/config.rs` (the below-1024 port case only
logs a warning and is omitted).  NOTE: nothing in the repository calls this
function; in particular `main` does not. -/
def AppConfig.validate (c : AppConfig) : Except String Unit :=
  if c.frontend_urls.isEmpty then
    .error "At least one frontend URL must be specified"
  else checkFrontendUrls c.frontend_urls

/-- The configuration phase of `main` (`src/main.rs` lines 104–105):
`AppConfig::from_env().expect(...)` — startup aborts exactly when `from_env`
fails.  `main` never invokes `AppConfig::validate`, so this is the entire
configuration gate of startup. -/
def startupLoadConfig (env : Env) : Except String AppConfig :=
  AppConfig.from_env env

/-! ## File attachments (`src/handlers/file.rs`) -/

/-- `MAX_FILE_SIZE` from `validate_file`. -/
def MAX_FILE_SIZE : Nat := 10 * 1024 * 1024

/-- `allowed_extensions` from `validate_file`. -/
def allowed_extensions : List String :=
  ["jpg", "jpeg", "png", "gif", "pdf", "doc", "docx",
   "txt", "zip", "rar", "json", "xml", "csv", "xlsx"]

/-- The extension → MIME type table of `validate_file`. -/
def mimeFor (ext : String) : String :=
  match ext with
  | "jpg" | "jpeg" => "image/jpeg"
  | "png" => "image/png"
  | "gif" => "image/gif"
  | "pdf" => "application/pdf"
  | "doc" => "application/msword"
  | "docx" => "application/vnd.openxmlformats-officedocument.wordprocessingml.document"
  | "txt" => "text/plain"
  | "zip" => "application/zip"
  | "rar" => "application/x-rar-compressed"
  | "json" => "application/json"
  | "xml" => "application/xml"
  | "csv" => "text/csv"
  | "xlsx" => "application/vnd.openxmlformats-officedocument.spreadsheetml.sheet"
  | _ => "application/octet-stream"

/-- Suffix of a character list after its last `'.'` (helper for
`rustExtension`; meaningful when the list contains a dot). -/
def afterLastDot : List Char → List Char
  | [] => []
  | c :: rest =>
    if c = '.' ∧ '.' ∉ rest then rest else afterLastDot rest

/-- `Path::new(file_name).extension()` on a plain file name (no directory
separators and not the special `"."`/`".."` components, which is the shape of
a multipart file name): `none` when no dot occurs after the first character,
otherwise the portion after the last dot. -/
def rustExtension (fileName : String) : Option String :=
  match fileName.toList with
  | [] => none
  | _ :: rest =>
    if '.' ∈ rest then some (String.mk (afterLastDot rest)) else none

/-- `validate_file` from `src/handlers/file.rs`: size bound first (so it
applies regardless of extension), then the case-insensitive extension check
(a missing extension becomes `""` via `unwrap_or_default`), then the MIME
lookup. -/
def validate_file (file_name : String) (file_size : Nat) :
    Except ServiceError String :=
  if file_size > MAX_FILE_SIZE then
    .error (.ValidationError "File size exceeds 10MB limit")
  else
    let extension := ((rustExtension file_name).map toLowerStr).getD ""
    if ¬ allowed_extensions.contains extension then
      .error (.ValidationError ("File type '" ++ extension ++ "' not allowed"))
    else .ok (mimeFor extension)

/-- The chunk-accumulation loop of `upload_file`: each chunk is appended and
the accumulated length checked against `10 * 1024 * 1024` after every
append. -/
def readChunksAux (acc : List Nat) :
    List (List Nat) → Except ServiceError (List Nat)
  | [] => .ok acc
  | c :: rest =>
    let acc' := acc ++ c
    if acc'.length > 10 * 1024 * 1024 then
      .error (.ValidationError "File size exceeds 10MB limit")
    else readChunksAux acc' rest

/-- The full streaming read of one multipart field's bytes by `upload_file`. -/
def readChunks (chunks : List (List Nat)) : Except ServiceError (List Nat) :=
  readChunksAux [] chunks

/-- One multipart field as seen by `upload_file`: its `Content-Disposition`
file name (if any) and its byte chunks (bytes as `Nat`s). -/
structure MultipartField where
  filename : Option String
  chunks : List (List Nat)
deriving DecidableEq, Repr

/-- Row of `task_attachments` as inserted by `upload_file` (the DB-assigned
`id` and `created_at` are irrelevant to the verified behaviour and omitted). -/
structure Attachment where
  task_id : Int
  file_name : String
  original_name : String
  file_path : String
  file_size : Nat
  mime_type : String
  uploaded_by : Int
deriving DecidableEq, Repr

/-- State touched by `upload_file`: the `tasks` table (ids suffice for the
existence check), the `task_attachments` table, and the set of files present
in the local `uploads` directory, as their paths. -/
structure UploadState where
  taskIds : List Int
  attachments : List Attachment
  files : List String
deriving DecidableEq, Repr

/-- The stored-file-name synthesis of `upload_file`:
`format!("{}_{}.{}", task_id, file_id, extension)` where `extension` is the
original name's raw extension or the `"bin"` fallback (`unwrap_or("bin")`). -/
def storedFileName (taskId : Int) (uuid : String) (file_name : String) : String :=
  toString taskId ++ "_" ++ uuid ++ "." ++ ((rustExtension file_name).getD "bin")

/-- The multipart loop of `upload_file` after the task-existence check: fields
are scanned in order; the first one carrying a file name is processed and the
handler returns (success or error); fields without a file name are skipped;
if no field carries a file name the handler fails with
`ValidationError "No file found in request"`.  `uuid` stands for the random
`Uuid::new_v4()`, `insertOk` for whether the metadata `INSERT` succeeds.
The file is written to disk only after `readChunks` and `validate_file` both
succeed; when the insert then fails, the just-written file is removed before
the error is returned. -/
def processFields (st : UploadState) (taskId : Int) (uuid : String)
    (userId : Int) (insertOk : Bool) :
    List MultipartField →
      Except ServiceError (Nat × ApiResp Attachment) × UploadState
  | [] => (.error (.ValidationError "No file found in request"), st)
  | field :: rest =>
    match field.filename with
    | none => processFields st taskId uuid userId insertOk rest
    | some file_name =>
      let stored_file_name := storedFileName taskId uuid file_name
      let file_path := "uploads/" ++ stored_file_name
      match readChunks field.chunks with
      | .error e => (.error e, st)
      | .ok file_data =>
        match validate_file file_name file_data.length with
        | .error e => (.error e, st)
        | .ok mime_type =>
          let files' := file_path :: st.files
          if insertOk then
            let att : Attachment :=
              { task_id := taskId, file_name := stored_file_name,
                original_name := file_name, file_path := file_path,
                file_size := file_data.length, mime_type := mime_type,
                uploaded_by := userId }
            (.ok (201, ApiResp.success "File uploaded successfully" att),
             { st with attachments := att :: st.attachments, files := files' })
          else
            (.error (.DatabaseError "Failed to save attachment info"),
             { st with files := files'.filter (fun p => p ≠ file_path) })

/-- `upload_file` from `src/handlers/file.rs` (post-authentication body):
task-existence check, then the multipart loop. -/
def upload_file (st : UploadState) (taskId : Int)
    (payload : List MultipartField) (uuid : String) (userId : Int)
    (insertOk : Bool) :
    Except ServiceError (Nat × ApiResp Attachment) × UploadState :=
  if taskId ∈ st.taskIds then
    processFields st taskId uuid userId insertOk payload
  else (.error (.NotFound "Task not found"), st)

/-! ## Helper lemmas -/

/-- If some requested team name resolves to no row, `get_team_ids_from_names`
fails with the `Team '<name>' not found` validation error for a missing
name. -/
theorem gtifn_error_of_missing (teams : List Team) (names : List String)
    (h : ∃ n ∈ names, lookupTeam teams n = none) :
    ∃ m ∈ names, lookupTeam teams m = none ∧
      get_team_ids_from_names teams names =
        .error (.ValidationError ("Team '" ++ m ++ "' not found")) := by
  induction names with
  | nil =>
    obtain ⟨n, hn, _⟩ := h
    exact absurd hn (List.not_mem_nil n)
  | cons a rest ih =>
    cases hla : lookupTeam teams a with
    | none =>
      refine ⟨a, List.mem_cons_self a rest, hla, ?_⟩
      simp [get_team_ids_from_names, hla]
    | some t =>
      have h' : ∃ n ∈ rest, lookupTeam teams n = none := by
        obtain ⟨n, hn, hnone⟩ := h
        rcases List.mem_cons.mp hn with rfl | hmem
        · rw [hla] at hnone; cases hnone
        · exact ⟨n, hmem, hnone⟩
      obtain ⟨m, hm, hnone, heq⟩ := ih h'
      refine ⟨m, List.mem_cons_of_mem a hm, hnone, ?_⟩
      simp [get_team_ids_from_names, hla, heq]

/-- If `get_team_ids_from_names` succeeds, every requested name resolves. -/
theorem gtifn_ok_resolves (teams : List Team) (names : List String)
    (ids : List Int)
    (h : get_team_ids_from_names teams names = .ok ids) :
    ∀ n ∈ names, ∃ t, lookupTeam teams n = some t := by
  induction names generalizing ids with
  | nil =>
    intro n hn
    exact absurd hn (List.not_mem_nil n)
  | cons a rest ih =>
    intro n hn
    cases hla : lookupTeam teams a with
    | none => simp [get_team_ids_from_names, hla] at h
    | some t =>
      rcases List.mem_cons.mp hn with rfl | hmem
      · exact ⟨t, hla⟩
      · cases hr : get_team_ids_from_names teams rest with
        | ok ids' => exact ih ids' hr n hmem
        | error e => simp [get_team_ids_from_names, hla, hr] at h

/-- `find?` over a per-id row update: the found row is the updated one. -/
theorem find?_map_update (l : List Task) (taskId : Int) (g : Task → Task)
    (hg : ∀ t, (g t).id = t.id) (t0 : Task)
    (h : l.find? (fun t => t.id = taskId) = some t0) :
    (l.map (fun t => if t.id = taskId then g t else t)).find?
      (fun t => t.id = taskId) = some (g t0) := by
  induction l with
  | nil => simp at h
  | cons a l ih =>
    by_cases ha : a.id = taskId
    · rw [List.find?_cons_of_pos _ (by simpa using ha)] at h
      injection h with h
      subst h
      simp only [List.map_cons, if_pos ha]
      exact List.find?_cons_of_pos _ (by simpa using (hg a).trans ha)
    · rw [List.find?_cons_of_neg _ (by simpa using ha)] at h
      simp only [List.map_cons, if_neg ha]
      rw [List.find?_cons_of_neg _ (by simpa using ha)]
      exact ih h

/-! ## Claim C1 -/

/-- C1: for a create-task request carrying a list of team names that passes
the name/status validation, if any supplied team name does not resolve to an
existing team the whole creation is aborted with
`ValidationError "Team '<name>' not found"` and the returned state is the
original one (no task row, no `task_teams` rows persisted); and whenever the
creation succeeds, every supplied team name resolved (the task row is
committed only when every step succeeds). -/
theorem create_task_missing_team_aborts
    (st : DbState) (userId : Int) (req : CreateTaskRequest) (newId : Int)
    (now : Nat) (names : List String)
    (hteams : req.teams = some names)
    (hname : isBlank req.name = false)
    (hstatus : req.status ∈ valid_statuses) :
    ((∃ n ∈ names, lookupTeam st.teams n = none) →
      ∃ m ∈ names, lookupTeam st.teams m = none ∧
        create_task st userId req newId now =
          (.error (.ValidationError ("Team '" ++ m ++ "' not found")), st)) ∧
    (∀ resp st', create_task st userId req newId now = (.ok resp, st') →
      ∀ n ∈ names, ∃ t, lookupTeam st.teams n = some t) := by
  constructor
  · intro hmiss
    obtain ⟨m, hm, hnone, heq⟩ := gtifn_error_of_missing st.teams names hmiss
    refine ⟨m, hm, hnone, ?_⟩
    have hne : names.isEmpty = false := by
      cases names with
      | nil => exact absurd hm (List.not_mem_nil m)
      | cons a l => rfl
    simp [create_task, hteams, hname, hstatus, hne, heq]
  · intro resp st' hok n hn
    cases hne : names.isEmpty with
    | true =>
      cases names with
      | nil => exact absurd hn (List.not_mem_nil n)
      | cons a l => simp at hne
    | false =>
      cases hr : get_team_ids_from_names st.teams names with
      | ok ids => exact gtifn_ok_resolves st.teams names ids hr n hn
      | error e =>
        simp [create_task, hteams, hname, hstatus, hne, hr] at hok

/-- Concrete state for the C1 witness: one team "Alpha", no tasks. -/
def stW1 : DbState :=
  { teams := [{ id := 1, name := "Alpha" }], tasks := [], taskTeams := [] }

/-- Concrete create request for the C1 witness: teams
`["Alpha", "DoesNotExist"]` where only "Alpha" exists. -/
def reqW1 : CreateTaskRequest :=
  { name := "n", description := none, status := "TO_DO",
    external_link := none, teams := some ["Alpha", "DoesNotExist"] }

/-- Witness for C1 at a concrete state and request. -/
theorem create_task_missing_team_aborts_witness :
    ((∃ n ∈ ["Alpha", "DoesNotExist"], lookupTeam stW1.teams n = none) →
      ∃ m ∈ ["Alpha", "DoesNotExist"], lookupTeam stW1.teams m = none ∧
        create_task stW1 7 reqW1 2 9 =
          (.error (.ValidationError ("Team '" ++ m ++ "' not found")), stW1)) ∧
    (∀ resp st', create_task stW1 7 reqW1 2 9 = (.ok resp, st') →
      ∀ n ∈ ["Alpha", "DoesNotExist"], ∃ t, lookupTeam stW1.teams n = some t) :=
  create_task_missing_team_aborts stW1 7 reqW1 2 9 ["Alpha", "DoesNotExist"]
    rfl (by decide) (by decide)

/-! ## Claim C2 -/

/-- C2: for a task id that does not exist, `get_task` returns an HTTP 200
success envelope with message "Task not found" and empty data, while
`update_task` and `delete_task` on the same id both return
`NotFound "Task not found"` (HTTP 404), so the two behaviours are
distinguishable. -/
theorem nonexistent_task_not_found_asymmetry
    (st : DbState) (taskId : Int) (req : UpdateTaskRequest) (now : Nat)
    (habs : findTask st taskId = none) :
    get_task st taskId =
      .ok (200, ApiResp.success "Task not found" (none : Option TaskResponse)) ∧
    httpStatusOf (get_task st taskId) = 200 ∧
    update_task st taskId req now = (.error (.NotFound "Task not found"), st) ∧
    delete_task st taskId = (.error (.NotFound "Task not found"), st) ∧
    httpStatusOf (update_task st taskId req now).1 = 404 ∧
    httpStatusOf (delete_task st taskId).1 = 404 := by
  have hget : get_task st taskId =
      .ok (200, ApiResp.success "Task not found" (none : Option TaskResponse)) := by
    simp [get_task, habs]
  have hupd : update_task st taskId req now =
      (.error (.NotFound "Task not found"), st) := by
    simp [update_task, habs]
  have hall : ∀ t ∈ st.tasks, ¬ t.id = taskId := by
    intro t ht
    have := List.find?_eq_none.mp habs t ht
    simpa using this
  have hfilter : st.tasks.filter (fun t => t.id ≠ taskId) = st.tasks := by
    rw [List.filter_eq_self]
    intro t ht
    simpa using hall t ht
  have hdel : delete_task st taskId =
      (.error (.NotFound "Task not found"), st) := by
    simp only [delete_task, hfilter]
    exact if_pos trivial
  refine ⟨hget, ?_, hupd, hdel, ?_, ?_⟩
  · rw [hget]; rfl
  · rw [hupd]; rfl
  · rw [hdel]; rfl

/-- The all-absent update request (no scalar fields, no teams). -/
def emptyUpdateReq : UpdateTaskRequest :=
  { name := none, description := none, status := none,
    external_link := none, teams := none }

/-- Witness for C2 at a concrete state (no tasks) and id. -/
theorem nonexistent_task_not_found_asymmetry_witness :
    get_task stW1 1 =
      .ok (200, ApiResp.success "Task not found" (none : Option TaskResponse)) ∧
    httpStatusOf (get_task stW1 1) = 200 ∧
    update_task stW1 1 emptyUpdateReq 99 =
      (.error (.NotFound "Task not found"), stW1) ∧
    delete_task stW1 1 = (.error (.NotFound "Task not found"), stW1) ∧
    httpStatusOf (update_task stW1 1 emptyUpdateReq 99).1 = 404 ∧
    httpStatusOf (delete_task stW1 1).1 = 404 :=
  nonexistent_task_not_found_asymmetry stW1 1 emptyUpdateReq 99 (by decide)

/-! ## Claim C3 -/

/-- C3: with non-blank username and password, a username matching no user and
a username matching a user whose stored hash does not verify the supplied
password produce identical outcomes: the same
`Unauthorized "Invalid credentials"` error, mapped to HTTP 401 in both
cases. -/
theorem login_unknown_user_and_wrong_password_identical
    (users : List UserRow) (verify : String → String → Except Unit Bool)
    (encodeJwt : String → String → String → Nat → Nat → String) (now : Nat)
    (reqA reqB : LoginRequest) (u : UserRow)
    (hA1 : isBlank reqA.username = false) (hA2 : isBlank reqA.password = false)
    (hB1 : isBlank reqB.username = false) (hB2 : isBlank reqB.password = false)
    (hAnone : users.find? (fun w => w.username = reqA.username) = none)
    (hBsome : users.find? (fun w => w.username = reqB.username) = some u)
    (hBverify : verify reqB.password u.password_hash = .ok false) :
    login users verify encodeJwt now reqA =
      .error (.Unauthorized "Invalid credentials") ∧
    login users verify encodeJwt now reqB =
      .error (.Unauthorized "Invalid credentials") ∧
    login users verify encodeJwt now reqA =
      login users verify encodeJwt now reqB ∧
    httpStatusOf (login users verify encodeJwt now reqA) = 401 ∧
    httpStatusOf (login users verify encodeJwt now reqB) = 401 := by
  have hA : login users verify encodeJwt now reqA =
      .error (.Unauthorized "Invalid credentials") := by
    simp [login, hA1, hA2, hAnone]
  have hB : login users verify encodeJwt now reqB =
      .error (.Unauthorized "Invalid credentials") := by
    simp [login, hB1, hB2, hBsome, hBverify]
  refine ⟨hA, hB, hA.trans hB.symm, ?_, ?_⟩
  · rw [hA]; rfl
  · rw [hB]; rfl

/-- Concrete users table for the C3 witness. -/
def usersW3 : List UserRow :=
  [{ id := 1, username := "bob", password_hash := "h", name := "Bob" }]

/-- Concrete bcrypt stand-in for the C3 witness: every comparison fails
(returns `Ok(false)`), as for a wrong password. -/
def verifyW3 : String → String → Except Unit Bool := fun _ _ => .ok false

/-- Concrete JWT-encode stand-in for the C3 witness. -/
def encodeJwtW3 : String → String → String → Nat → Nat → String :=
  fun _ _ _ _ _ => "tok"

/-- Witness for C3: `alice` does not exist, `bob` exists with a wrong
password; both logins fail identically. -/
theorem login_unknown_user_and_wrong_password_identical_witness :
    login usersW3 verifyW3 encodeJwtW3 0 { username := "alice", password := "pw" } =
      .error (.Unauthorized "Invalid credentials") ∧
    login usersW3 verifyW3 encodeJwtW3 0 { username := "bob", password := "pw" } =
      .error (.Unauthorized "Invalid credentials") ∧
    login usersW3 verifyW3 encodeJwtW3 0 { username := "alice", password := "pw" } =
      login usersW3 verifyW3 encodeJwtW3 0 { username := "bob", password := "pw" } ∧
    httpStatusOf (login usersW3 verifyW3 encodeJwtW3 0
      { username := "alice", password := "pw" }) = 401 ∧
    httpStatusOf (login usersW3 verifyW3 encodeJwtW3 0
      { username := "bob", password := "pw" }) = 401 :=
  login_unknown_user_and_wrong_password_identical usersW3 verifyW3 encodeJwtW3 0
    { username := "alice", password := "pw" } { username := "bob", password := "pw" }
    { id := 1, username := "bob", password_hash := "h", name := "Bob" }
    (by decide) (by decide) (by decide) (by decide) (by decide) (by decide) rfl

/-! ## Claim C4 -/

/-- If an option's `isSome` is `false`, it is `none`. -/
theorem opt_none_of_isSome_false {α : Type} {o : Option α}
    (h : o.isSome = false) : o = none := by
  cases o with
  | none => rfl
  | some v => simp at h

/-- Concrete one-task state for the C4 counterexample: task 1 has
`updated_at = 5`. -/
def cexSt4 : DbState :=
  { teams := [],
    tasks := [{ id := 1, name := "t", description := none, status := "TO_DO",
                external_link := none, created_by := 7, created_at := 3,
                updated_at := 5 }],
    taskTeams := [] }

/-- C4 counterexample: updating task 1 of `cexSt4` with a request carrying no
scalar fields at `now = 99` succeeds (HTTP 200) yet leaves the state — and in
particular `updated_at = 5` — completely unchanged, refuting "updated_at is
always refreshed to the current time, including when no scalar fields are
supplied": the source runs no `UPDATE` when `has_updates` is false. -/
theorem update_task_empty_request_keeps_updated_at_cex :
    update_task cexSt4 1 emptyUpdateReq 99 =
      (.ok (200, ApiResp.success "Task updated successfully"
        { id := 1, name := "t", description := none, status := "TO_DO",
          external_link := none, created_by := 7, teams := [],
          created_at := 3, updated_at := 5 }), cexSt4) ∧
    ¬ ((findTask (update_task cexSt4 1 emptyUpdateReq 99).2 1).map
        Task.updated_at = some 99) := by
  constructor
  · decide
  · decide

/-- C4 (amended): on a successful update with `teams` absent, exactly the
scalar fields present in the request are changed and absent fields keep their
prior values, team assignments are untouched, and `updated_at` is refreshed
to `now` exactly when at least one scalar field is present — when none is,
the row (including `updated_at`) is left unchanged. -/
theorem update_task_partial_update_frame
    (st : DbState) (taskId : Int) (req : UpdateTaskRequest) (now : Nat)
    (oldTask : Task)
    (hfind : findTask st taskId = some oldTask)
    (hstatus : ∀ s, req.status = some s → s ∈ valid_statuses)
    (hteams : req.teams = none) :
    ∃ resp st',
      update_task st taskId req now = (.ok resp, st') ∧
      st'.teams = st.teams ∧
      st'.taskTeams = st.taskTeams ∧
      ∃ newTask, findTask st' taskId = some newTask ∧
        newTask.id = oldTask.id ∧
        newTask.created_by = oldTask.created_by ∧
        newTask.created_at = oldTask.created_at ∧
        newTask.name = req.name.getD oldTask.name ∧
        newTask.description =
          (match req.description with
            | some d => some d
            | none => oldTask.description) ∧
        newTask.status = req.status.getD oldTask.status ∧
        newTask.external_link =
          (match req.external_link with
            | some l => some l
            | none => oldTask.external_link) ∧
        newTask.updated_at =
          (if req.hasUpdates then now else oldTask.updated_at) := by
  have hguard : (match req.status with
      | some s => !valid_statuses.contains s
      | none => false) = false := by
    cases hs : req.status with
    | none => rfl
    | some s => simp [hstatus s hs]
  simp only [update_task, hfind, hguard, Bool.false_eq_true, if_false, hteams]
  cases hu : req.hasUpdates with
  | true =>
    refine ⟨_, _, rfl, rfl, rfl, applyScalarUpdate oldTask req now,
      ?_, rfl, rfl, rfl, rfl, rfl, rfl, rfl, rfl⟩
    simp only [findTask]
    exact find?_map_update st.tasks taskId
      (fun t => applyScalarUpdate t req now) (fun t => rfl) oldTask hfind
  | false =>
    have hn' : req.name = none := by
      cases hv : req.name with
      | none => rfl
      | some v => simp [UpdateTaskRequest.hasUpdates, hv] at hu
    have hd' : req.description = none := by
      cases hv : req.description with
      | none => rfl
      | some v => simp [UpdateTaskRequest.hasUpdates, hv] at hu
    have hs' : req.status = none := by
      cases hv : req.status with
      | none => rfl
      | some v => simp [UpdateTaskRequest.hasUpdates, hv] at hu
    have hl' : req.external_link = none := by
      cases hv : req.external_link with
      | none => rfl
      | some v => simp [UpdateTaskRequest.hasUpdates, hv] at hu
    refine ⟨_, _, rfl, rfl, rfl, oldTask, hfind,
      rfl, rfl, rfl, ?_, ?_, ?_, ?_, rfl⟩
    · rw [hn']; rfl
    · rw [hd']
    · rw [hs']; rfl
    · rw [hl']

/-- Concrete state for the C4 witness: task 1 assigned to team "Alpha". -/
def stW4 : DbState :=
  { teams := [{ id := 1, name := "Alpha" }],
    tasks := [{ id := 1, name := "t", description := none, status := "TO_DO",
                external_link := none, created_by := 7, created_at := 3,
                updated_at := 5 }],
    taskTeams := [(1, 1)] }

/-- Concrete description-only update request for the C4 witness. -/
def reqW4 : UpdateTaskRequest :=
  { name := none, description := some "x", status := none,
    external_link := none, teams := none }

/-- Witness for the amended C4 at a concrete state and request. -/
theorem update_task_partial_update_frame_witness :
    ∃ resp st',
      update_task stW4 1 reqW4 99 = (.ok resp, st') ∧
      st'.teams = stW4.teams ∧
      st'.taskTeams = stW4.taskTeams ∧
      ∃ newTask, findTask st' 1 = some newTask ∧
        newTask.id = 1 ∧
        newTask.created_by = 7 ∧
        newTask.created_at = 3 ∧
        newTask.name = reqW4.name.getD "t" ∧
        newTask.description =
          (match reqW4.description with
            | some d => some d
            | none => none) ∧
        newTask.status = reqW4.status.getD "TO_DO" ∧
        newTask.external_link =
          (match reqW4.external_link with
            | some l => some l
            | none => none) ∧
        newTask.updated_at = (if reqW4.hasUpdates then 99 else 5) :=
  update_task_partial_update_frame stW4 1 reqW4 99
    { id := 1, name := "t", description := none, status := "TO_DO",
      external_link := none, created_by := 7, created_at := 3,
      updated_at := 5 }
    (by decide) (by intro s hs; cases hs) rfl

/-! ## Claim C5 -/

/-- C5: on a successful update of an existing task, when `teams` is supplied
the `task_teams` rows of the task are fully replaced by rows for exactly the
resolved supplied names (an empty list leaves the task with no assignments);
when `teams` is absent the assignments are untouched. -/
theorem update_task_team_replacement
    (st : DbState) (taskId : Int) (req : UpdateTaskRequest) (now : Nat)
    (oldTask : Task)
    (hfind : findTask st taskId = some oldTask)
    (hstatus : ∀ s, req.status = some s → s ∈ valid_statuses) :
    (∀ names ids, req.teams = some names →
      get_team_ids_from_names st.teams names = .ok ids →
      ∃ resp st', update_task st taskId req now = (.ok resp, st') ∧
        st'.taskTeams =
          st.taskTeams.filter (fun p => p.1 ≠ taskId) ++
            ids.map (fun tid => (taskId, tid)) ∧
        (names = [] → ∀ p ∈ st'.taskTeams, p.1 ≠ taskId)) ∧
    (req.teams = none →
      ∃ resp st', update_task st taskId req now = (.ok resp, st') ∧
        st'.taskTeams = st.taskTeams) := by
  have hguard : (match req.status with
      | some s => !valid_statuses.contains s
      | none => false) = false := by
    cases hs : req.status with
    | none => rfl
    | some s => simp [hstatus s hs]
  have htx1 : (if req.hasUpdates then { st with tasks := st.tasks.map (fun t => if t.id = taskId then applyScalarUpdate t req now else t) } else st).taskTeams = st.taskTeams := by
    cases req.hasUpdates <;> rfl
  constructor
  · intro names ids hteams hids
    simp only [update_task, hfind, hguard, Bool.false_eq_true, if_false, hteams]
    cases names with
    | nil =>
      have hids' : ids = [] := by
        simpa [get_team_ids_from_names] using hids.symm
      subst hids'
      refine ⟨_, _, rfl, ?_, ?_⟩
      · rw [htx1]
        simp
      · intro _ p hp
        rw [htx1] at hp
        have := List.of_mem_filter hp
        simpa using this
    | cons a l =>
      rw [hids]
      refine ⟨_, _, rfl, ?_, ?_⟩
      · rw [htx1]
      · intro h
        cases h
  · intro hteams
    simp only [update_task, hfind, hguard, Bool.false_eq_true, if_false, hteams]
    exact ⟨_, _, rfl, htx1⟩

/-- Concrete update request for the C5 witness: `teams = ["Alpha"]`. -/
def reqW5 : UpdateTaskRequest :=
  { name := none, description := none, status := none,
    external_link := none, teams := some ["Alpha"] }

/-- Witness for C5 at a concrete state and request. -/
theorem update_task_team_replacement_witness :
    (∀ names ids, reqW5.teams = some names →
      get_team_ids_from_names stW4.teams names = .ok ids →
      ∃ resp st', update_task stW4 1 reqW5 99 = (.ok resp, st') ∧
        st'.taskTeams =
          stW4.taskTeams.filter (fun p => p.1 ≠ 1) ++
            ids.map (fun tid => ((1 : Int), tid)) ∧
        (names = [] → ∀ p ∈ st'.taskTeams, p.1 ≠ 1)) ∧
    (reqW5.teams = none →
      ∃ resp st', update_task stW4 1 reqW5 99 = (.ok resp, st') ∧
        st'.taskTeams = stW4.taskTeams) :=
  update_task_team_replacement stW4 1 reqW5 99
    { id := 1, name := "t", description := none, status := "TO_DO",
      external_link := none, created_by := 7, created_at := 3,
      updated_at := 5 }
    (by decide) (by intro s hs; cases hs)

/-! ## Upload-stream lemmas -/

/-- The streaming loop errors as soon as the accumulated length passes the
10 MiB bound; if the remaining chunks push the total over the bound, the loop
fails with the size validation error. -/
theorem readChunksAux_error (chunks : List (List Nat)) (acc : List Nat)
    (hacc : acc.length ≤ 10 * 1024 * 1024)
    (h : acc.length + chunks.flatten.length > 10 * 1024 * 1024) :
    readChunksAux acc chunks =
      .error (.ValidationError "File size exceeds 10MB limit") := by
  induction chunks generalizing acc with
  | nil =>
    exfalso
    simp only [List.flatten_nil, List.length_nil] at h
    omega
  | cons c rest ih =>
    have hlen : (acc ++ c).length = acc.length + c.length :=
      List.length_append acc c
    have hjoin : ((c :: rest).flatten).length = c.length + rest.flatten.length := by
      simp [List.flatten_cons]
    simp only [readChunksAux]
    by_cases hgt : (acc ++ c).length > 10 * 1024 * 1024
    · rw [if_pos hgt]
    · rw [if_neg hgt]
      exact ih (acc ++ c) (by omega) (by omega)

/-- When the total stays within the bound, the streaming loop returns the
concatenation of all chunks. -/
theorem readChunksAux_ok (chunks : List (List Nat)) (acc : List Nat)
    (h : acc.length + chunks.flatten.length ≤ 10 * 1024 * 1024) :
    readChunksAux acc chunks = .ok (acc ++ chunks.flatten) := by
  induction chunks generalizing acc with
  | nil => simp [readChunksAux]
  | cons c rest ih =>
    have hlen : (acc ++ c).length = acc.length + c.length :=
      List.length_append acc c
    have hjoin : ((c :: rest).flatten).length = c.length + rest.flatten.length := by
      simp [List.flatten_cons]
    simp only [readChunksAux]
    rw [if_neg (by omega)]
    rw [ih (acc ++ c) (by omega)]
    simp [List.flatten_cons, List.append_assoc]

/-- An over-limit byte stream always fails the streaming check. -/
theorem readChunks_error (chunks : List (List Nat))
    (h : chunks.flatten.length > MAX_FILE_SIZE) :
    readChunks chunks = .error (.ValidationError "File size exceeds 10MB limit") :=
  readChunksAux_error chunks [] (by simp)
    (by simpa [MAX_FILE_SIZE] using h)

/-- A within-limit byte stream is read whole. -/
theorem readChunks_ok (chunks : List (List Nat))
    (h : chunks.flatten.length ≤ MAX_FILE_SIZE) :
    readChunks chunks = .ok chunks.flatten := by
  have := readChunksAux_ok chunks [] (by simpa [MAX_FILE_SIZE] using h)
  simpa [readChunks] using this

/-- Shape of `upload_file` when the first multipart field carries a file name
and its byte stream is within the size bound: the outcome is decided by
`validate_file` on the original name and total size, and on success by the
metadata insert. -/
theorem upload_first_file_eq (st : UploadState) (taskId : Int) (uuid : String)
    (userId : Int) (insertOk : Bool) (name : String)
    (chunks : List (List Nat)) (rest : List MultipartField)
    (htask : taskId ∈ st.taskIds)
    (hsize : chunks.flatten.length ≤ MAX_FILE_SIZE) :
    upload_file st taskId ({ filename := some name, chunks := chunks } :: rest)
        uuid userId insertOk =
      (match validate_file name chunks.flatten.length with
        | .error e => (.error e, st)
        | .ok mime =>
          if insertOk then
            (.ok (201, ApiResp.success "File uploaded successfully"
              { task_id := taskId, file_name := storedFileName taskId uuid name,
                original_name := name,
                file_path := "uploads/" ++ storedFileName taskId uuid name,
                file_size := chunks.flatten.length, mime_type := mime,
                uploaded_by := userId }),
             { st with
                attachments :=
                  { task_id := taskId,
                    file_name := storedFileName taskId uuid name,
                    original_name := name,
                    file_path := "uploads/" ++ storedFileName taskId uuid name,
                    file_size := chunks.flatten.length, mime_type := mime,
                    uploaded_by := userId } :: st.attachments,
                files := ("uploads/" ++ storedFileName taskId uuid name) :: st.files })
          else
            (.error (.DatabaseError "Failed to save attachment info"),
             { st with files := (("uploads/" ++ storedFileName taskId uuid name) :: st.files).filter (fun p => p ≠ "uploads/" ++ storedFileName taskId uuid name) })) := by
  simp only [upload_file, if_pos htask, processFields, readChunks_ok chunks hsize]

/-- Within the size bound, `validate_file` is decided by the (lower-cased)
extension alone: allowed ⇒ the mapped MIME type, otherwise the
`File type '<ext>' not allowed` error. -/
theorem validate_file_ext (name : String) (size : Nat)
    (hsize : size ≤ MAX_FILE_SIZE) :
    validate_file name size =
      (if allowed_extensions.contains (((rustExtension name).map toLowerStr).getD "") then
        .ok (mimeFor (((rustExtension name).map toLowerStr).getD ""))
      else
        .error (.ValidationError
          ("File type '" ++ ((rustExtension name).map toLowerStr).getD "" ++ "' not allowed"))) := by
  simp only [validate_file]
  rw [if_neg (not_lt.mpr hsize)]
  by_cases h : allowed_extensions.contains (((rustExtension name).map toLowerStr).getD "") = true
  · rw [if_neg (not_not_intro h), if_pos h]
  · rw [if_pos h, if_neg h]

/-! ## Claim C6 -/

/-- C6: for an upload to an existing task, a byte stream whose total exceeds
10 MiB fails the size `ValidationError` regardless of the file name; within
the limit, a file name whose lower-cased extension is outside the allowed set
fails `ValidationError "File type '<ext>' not allowed"`; an allowed extension
within the limit is accepted (HTTP 201) and the attachment is stored with
that extension's mapped MIME type. -/
theorem upload_size_and_type_enforcement
    (st : UploadState) (taskId : Int) (uuid : String) (userId : Int)
    (insertOk : Bool) (name : String) (chunks : List (List Nat))
    (rest : List MultipartField)
    (htask : taskId ∈ st.taskIds) :
    (chunks.flatten.length > MAX_FILE_SIZE →
      upload_file st taskId ({ filename := some name, chunks := chunks } :: rest)
          uuid userId insertOk =
        (.error (.ValidationError "File size exceeds 10MB limit"), st)) ∧
    (chunks.flatten.length ≤ MAX_FILE_SIZE →
      allowed_extensions.contains (((rustExtension name).map toLowerStr).getD "") = false →
      upload_file st taskId ({ filename := some name, chunks := chunks } :: rest)
          uuid userId insertOk =
        (.error (.ValidationError
          ("File type '" ++ ((rustExtension name).map toLowerStr).getD "" ++ "' not allowed")), st)) ∧
    (chunks.flatten.length ≤ MAX_FILE_SIZE →
      allowed_extensions.contains (((rustExtension name).map toLowerStr).getD "") = true →
      insertOk = true →
      upload_file st taskId ({ filename := some name, chunks := chunks } :: rest)
          uuid userId insertOk =
        (.ok (201, ApiResp.success "File uploaded successfully"
          { task_id := taskId, file_name := storedFileName taskId uuid name,
            original_name := name,
            file_path := "uploads/" ++ storedFileName taskId uuid name,
            file_size := chunks.flatten.length,
            mime_type := mimeFor (((rustExtension name).map toLowerStr).getD ""),
            uploaded_by := userId }),
         { st with
            attachments :=
              { task_id := taskId, file_name := storedFileName taskId uuid name,
                original_name := name,
                file_path := "uploads/" ++ storedFileName taskId uuid name,
                file_size := chunks.flatten.length,
                mime_type := mimeFor (((rustExtension name).map toLowerStr).getD ""),
                uploaded_by := userId } :: st.attachments,
            files := ("uploads/" ++ storedFileName taskId uuid name) :: st.files })) := by
  refine ⟨?_, ?_, ?_⟩
  · intro hgt
    simp only [upload_file, if_pos htask, processFields, readChunks_error chunks hgt]
  · intro hsize hext
    rw [upload_first_file_eq st taskId uuid userId insertOk name chunks rest htask hsize]
    rw [validate_file_ext name chunks.flatten.length hsize]
    rw [if_neg (by rw [hext]; exact Bool.false_ne_true)]
  · intro hsize hext hins
    subst hins
    rw [upload_first_file_eq st taskId uuid userId true name chunks rest htask hsize]
    rw [validate_file_ext name chunks.flatten.length hsize]
    rw [if_pos hext]
    rfl

/-- Concrete upload state for the C6 witness: task 1 exists, nothing
uploaded yet. -/
def stW6 : UploadState := { taskIds := [1], attachments := [], files := [] }

/-- Witness for C6 at a concrete task, file name `a.png` and one 1-byte
chunk. -/
theorem upload_size_and_type_enforcement_witness :
    (([([0] : List Nat)] : List (List Nat)).flatten.length > MAX_FILE_SIZE →
      upload_file stW6 1 ({ filename := some "a.png", chunks := [[0]] } :: [])
          "u" 7 true =
        (.error (.ValidationError "File size exceeds 10MB limit"), stW6)) ∧
    (([([0] : List Nat)] : List (List Nat)).flatten.length ≤ MAX_FILE_SIZE →
      allowed_extensions.contains (((rustExtension "a.png").map toLowerStr).getD "") = false →
      upload_file stW6 1 ({ filename := some "a.png", chunks := [[0]] } :: [])
          "u" 7 true =
        (.error (.ValidationError
          ("File type '" ++ ((rustExtension "a.png").map toLowerStr).getD "" ++ "' not allowed")), stW6)) ∧
    (([([0] : List Nat)] : List (List Nat)).flatten.length ≤ MAX_FILE_SIZE →
      allowed_extensions.contains (((rustExtension "a.png").map toLowerStr).getD "") = true →
      true = true →
      upload_file stW6 1 ({ filename := some "a.png", chunks := [[0]] } :: [])
          "u" 7 true =
        (.ok (201, ApiResp.success "File uploaded successfully"
          { task_id := 1, file_name := storedFileName 1 "u" "a.png",
            original_name := "a.png",
            file_path := "uploads/" ++ storedFileName 1 "u" "a.png",
            file_size := ([([0] : List Nat)] : List (List Nat)).flatten.length,
            mime_type := mimeFor (((rustExtension "a.png").map toLowerStr).getD ""),
            uploaded_by := 7 }),
         { stW6 with
            attachments :=
              { task_id := 1, file_name := storedFileName 1 "u" "a.png",
                original_name := "a.png",
                file_path := "uploads/" ++ storedFileName 1 "u" "a.png",
                file_size := ([([0] : List Nat)] : List (List Nat)).flatten.length,
                mime_type := mimeFor (((rustExtension "a.png").map toLowerStr).getD ""),
                uploaded_by := 7 } :: stW6.attachments,
            files := ("uploads/" ++ storedFileName 1 "u" "a.png") :: stW6.files })) :=
  upload_size_and_type_enforcement stW6 1 "u" 7 true "a.png" [[0]] [] (by decide)

/-! ## Claim C8 -/

/-- C8: when the metadata insert fails after the file bytes were written, the
just-written file is removed before the error is returned: the returned
state's `uploads` directory does not contain the stored path, no attachment
row is added, and the error is the attachment-save `DatabaseError`. -/
theorem upload_insert_failure_no_orphan
    (st : UploadState) (taskId : Int) (uuid : String) (userId : Int)
    (name : String) (chunks : List (List Nat)) (rest : List MultipartField)
    (htask : taskId ∈ st.taskIds)
    (hsize : chunks.flatten.length ≤ MAX_FILE_SIZE)
    (hext : allowed_extensions.contains (((rustExtension name).map toLowerStr).getD "") = true) :
    ∃ st',
      upload_file st taskId ({ filename := some name, chunks := chunks } :: rest)
          uuid userId false =
        (.error (.DatabaseError "Failed to save attachment info"), st') ∧
      st'.files = st.files.filter (fun p => p ≠ "uploads/" ++ storedFileName taskId uuid name) ∧
      ("uploads/" ++ storedFileName taskId uuid name) ∉ st'.files ∧
      st'.attachments = st.attachments ∧
      st'.taskIds = st.taskIds := by
  rw [upload_first_file_eq st taskId uuid userId false name chunks rest htask hsize]
  rw [validate_file_ext name chunks.flatten.length hsize]
  rw [if_pos hext]
  refine ⟨_, rfl, ?_, ?_, rfl, rfl⟩
  · simp
  · intro hmem
    have := List.of_mem_filter hmem
    simp at this

/-- Witness for C8 at a concrete upload whose metadata insert fails. -/
theorem upload_insert_failure_no_orphan_witness :
    ∃ st',
      upload_file stW6 1 ({ filename := some "a.png", chunks := [[0]] } :: [])
          "u" 7 false =
        (.error (.DatabaseError "Failed to save attachment info"), st') ∧
      st'.files = stW6.files.filter (fun p => p ≠ "uploads/" ++ storedFileName 1 "u" "a.png") ∧
      ("uploads/" ++ storedFileName 1 "u" "a.png") ∉ st'.files ∧
      st'.attachments = stW6.attachments ∧
      st'.taskIds = stW6.taskIds :=
  upload_insert_failure_no_orphan stW6 1 "u" 7 "a.png" [[0]] []
    (by decide) (by decide) (by decide)

/-! ## Claim C9 -/

/-- Concrete upload state for the C9 counterexample. -/
def stW9 : UploadState := { taskIds := [1], attachments := [], files := [] }

/-- C9 counterexample: uploading `README` (no extension) to existing task 1
synthesizes the stored name `1_u1.bin`, but the upload does NOT complete
successfully: `validate_file` computes the extension of the original name as
`""`, which is outside the allowed set, so the request fails
`ValidationError "File type '' not allowed"` before any file or metadata row
is written (the state is unchanged), refuting "such an upload can complete
successfully". -/
theorem upload_no_extension_rejected_cex :
    storedFileName 1 "u1" "README" = "1_u1.bin" ∧
    upload_file stW9 1 [{ filename := some "README", chunks := [[65]] }] "u1" 7 true =
      (.error (.ValidationError "File type '' not allowed"), stW9) := by
  constructor
  · decide
  · decide

/-- C9 (amended): for an upload whose original file name has no extension,
the stored file name is synthesized with the `.bin` fallback, but the upload
can never complete: `validate_file` sees the empty extension (not in the
allowed set) and fails `ValidationError "File type '' not allowed"` before
the file is written, leaving the state unchanged — no stored file and no
metadata row are produced. -/
theorem upload_no_extension_always_rejected
    (st : UploadState) (taskId : Int) (uuid : String) (userId : Int)
    (insertOk : Bool) (name : String) (chunks : List (List Nat))
    (rest : List MultipartField)
    (htask : taskId ∈ st.taskIds)
    (hnoext : rustExtension name = none)
    (hsize : chunks.flatten.length ≤ MAX_FILE_SIZE) :
    storedFileName taskId uuid name = toString taskId ++ "_" ++ uuid ++ "." ++ "bin" ∧
    upload_file st taskId ({ filename := some name, chunks := chunks } :: rest)
        uuid userId insertOk =
      (.error (.ValidationError "File type '' not allowed"), st) := by
  constructor
  · simp [storedFileName, hnoext]
  · rw [upload_first_file_eq st taskId uuid userId insertOk name chunks rest htask hsize]
    rw [validate_file_ext name chunks.flatten.length hsize]
    rw [hnoext]
    rw [if_neg (by decide)]
    rfl

/-- Witness for the amended C9 at a concrete extensionless upload. -/
theorem upload_no_extension_always_rejected_witness :
    storedFileName 1 "u2" "Makefile" = toString (1 : Int) ++ "_" ++ "u2" ++ "." ++ "bin" ∧
    upload_file stW6 1 ({ filename := some "Makefile", chunks := [[65]] } :: [])
        "u2" 7 true =
      (.error (.ValidationError "File type '' not allowed"), stW6) :=
  upload_no_extension_always_rejected stW6 1 "u2" 7 true "Makefile" [[65]] []
    (by decide) (by decide) (by decide)

/-! ## Claim C10 -/

/-- A multipart payload in which no field carries a file name makes the field
loop fail with `ValidationError "No file found in request"`, leaving the
state unchanged. -/
theorem processFields_no_filename (st : UploadState) (taskId : Int)
    (uuid : String) (userId : Int) (insertOk : Bool)
    (payload : List MultipartField)
    (hall : ∀ g ∈ payload, g.filename = none) :
    processFields st taskId uuid userId insertOk payload =
      (.error (.ValidationError "No file found in request"), st) := by
  induction payload with
  | nil => rfl
  | cons g rest ih =>
    have hg : g.filename = none := hall g (List.mem_cons_self g rest)
    simp only [processFields, hg]
    exact ih (fun x hx => hall x (List.mem_cons_of_mem g hx))

/-- Fields before the first file-carrying field are skipped, and everything
after it is ignored: the loop's outcome is that of the first file field
alone. -/
theorem processFields_first_file (st : UploadState) (taskId : Int)
    (uuid : String) (userId : Int) (insertOk : Bool)
    (pre : List MultipartField) (f : MultipartField)
    (rest : List MultipartField)
    (hpre : ∀ g ∈ pre, g.filename = none)
    (hf : f.filename.isSome = true) :
    processFields st taskId uuid userId insertOk (pre ++ f :: rest) =
      processFields st taskId uuid userId insertOk [f] := by
  induction pre with
  | nil =>
    obtain ⟨fn, chs⟩ := f
    cases fn with
    | none => simp at hf
    | some name => simp only [List.nil_append]; rfl
  | cons g pre' ih =>
    have hg : g.filename = none := hpre g (List.mem_cons_self g pre')
    simp only [List.cons_append, processFields, hg]
    exact ih (fun x hx => hpre x (List.mem_cons_of_mem g hx))

/-- The field loop adds at most one attachment row. -/
theorem processFields_att_bound (st : UploadState) (taskId : Int)
    (uuid : String) (userId : Int) (insertOk : Bool)
    (payload : List MultipartField) :
    (processFields st taskId uuid userId insertOk payload).2.attachments.length ≤
      st.attachments.length + 1 := by
  induction payload with
  | nil => exact Nat.le_succ _
  | cons g rest ih =>
    cases hg : g.filename with
    | none =>
      simp only [processFields, hg]
      exact ih
    | some name =>
      cases hr : readChunks g.chunks with
      | error e =>
        simp only [processFields, hg, hr]
        exact Nat.le_succ _
      | ok data =>
        cases hv : validate_file name data.length with
        | error e =>
          simp only [processFields, hg, hr, hv]
          exact Nat.le_succ _
        | ok mime =>
          cases insertOk with
          | true =>
            have heq : (processFields st taskId uuid userId true (g :: rest)).2.attachments.length =
                st.attachments.length + 1 := by
              simp [processFields, hg, hr, hv]
            omega
          | false =>
            have heq : (processFields st taskId uuid userId false (g :: rest)).2.attachments =
                st.attachments := by
              simp [processFields, hg, hr, hv]
            rw [heq]
            exact Nat.le_succ _

/-- C10: at most one attachment per upload: a payload without any
file-carrying field fails `ValidationError "No file found in request"`; the
handler's outcome is that of the first field carrying a file name, with all
further fields ignored; and the attachment table grows by at most one row. -/
theorem upload_single_file_semantics
    (st : UploadState) (taskId : Int) (uuid : String) (userId : Int)
    (insertOk : Bool) (payload pre rest : List MultipartField)
    (f : MultipartField) (htask : taskId ∈ st.taskIds) :
    ((∀ g ∈ payload, g.filename = none) →
      upload_file st taskId payload uuid userId insertOk =
        (.error (.ValidationError "No file found in request"), st)) ∧
    ((∀ g ∈ pre, g.filename = none) → f.filename.isSome = true →
      upload_file st taskId (pre ++ f :: rest) uuid userId insertOk =
        upload_file st taskId [f] uuid userId insertOk) ∧
    ((upload_file st taskId payload uuid userId insertOk).2.attachments.length ≤
      st.attachments.length + 1) := by
  refine ⟨?_, ?_, ?_⟩
  · intro hall
    simp only [upload_file, if_pos htask]
    exact processFields_no_filename st taskId uuid userId insertOk payload hall
  · intro hpre hf
    simp only [upload_file, if_pos htask]
    exact processFields_first_file st taskId uuid userId insertOk pre f rest hpre hf
  · simp only [upload_file, if_pos htask]
    exact processFields_att_bound st taskId uuid userId insertOk payload

/-- Witness for C10 at a concrete payload: one filename-less field before a
`png` file field, with a trailing ignored field. -/
theorem upload_single_file_semantics_witness :
    ((∀ g ∈ ([{ filename := none, chunks := [] }] : List MultipartField),
        g.filename = none) →
      upload_file stW9 1 [{ filename := none, chunks := [] }] "u" 7 true =
        (.error (.ValidationError "No file found in request"), stW9)) ∧
    ((∀ g ∈ ([{ filename := none, chunks := [] }] : List MultipartField),
        g.filename = none) →
      (({ filename := some "a.png", chunks := [[0]] } : MultipartField)).filename.isSome = true →
      upload_file stW9 1
          ([{ filename := none, chunks := [] }] ++
            ({ filename := some "a.png", chunks := [[0]] } : MultipartField) ::
              [{ filename := some "b.png", chunks := [[1]] }]) "u" 7 true =
        upload_file stW9 1 [{ filename := some "a.png", chunks := [[0]] }] "u" 7 true) ∧
    ((upload_file stW9 1 [{ filename := none, chunks := [] }] "u" 7 true).2.attachments.length ≤
      stW9.attachments.length + 1) :=
  upload_single_file_semantics stW9 1 "u" 7 true
    [{ filename := none, chunks := [] }]
    [{ filename := none, chunks := [] }]
    [{ filename := some "b.png", chunks := [[1]] }]
    { filename := some "a.png", chunks := [[0]] } (by decide)

/-! ## Claim C7 -/

/-- Environment for C7: valid database URL and JWT secret, but a frontend URL
with an `ftp://` scheme. -/
def cfgEnv7 : Env :=
  { database_url := some "postgres://localhost/db", port := none,
    jwt_secret := some "0123456789abcdef0123456789abcdef", environment := none,
    frontend_urls := some "ftp://example.com",
    cloudinary_cloud_name := none, cloudinary_api_key := none,
    cloudinary_api_secret := none }

/-- The configuration produced by `from_env` on `cfgEnv7`. -/
def cfg7 : AppConfig :=
  { database_url := "postgres://localhost/db", port := 8080,
    jwt_secret := "0123456789abcdef0123456789abcdef",
    environment := "development", frontend_urls := ["ftp://example.com"],
    cloudinary_cloud_name := none, cloudinary_api_key := none,
    cloudinary_api_secret := none }

/-- C7: the startup configuration phase (`main` calls only
`AppConfig::from_env`) accepts an environment whose frontend URL starts with
neither `http://` nor `https://` — startup does NOT fail — even though
`AppConfig::validate` would reject exactly that value with the descriptive
message; `main` never calls `validate`, so the frontend-URL fail-fast check
of the spec is dead code. -/
theorem startup_skips_frontend_url_validation :
    startupLoadConfig cfgEnv7 = .ok cfg7 ∧
    cfg7.frontend_urls = ["ftp://example.com"] ∧
    AppConfig.validate cfg7 =
      .error "Frontend URL 'ftp://example.com' must start with http:// or https://" := by
  refine ⟨by decide, by decide, by decide⟩

end Kanban
